import Mathlib

/-
Verification of the reslib validator core (rule composition and resolution
engine) against its specification.

The leaf format rules (file `part_004`, module of `_UUID`, `_JSON`, `_Base64`,
`_HexColor`, `_CreditCard`, `_IsIP`, `_MACAddress`, `Url`) and the helper
`toNumber` (src/validator/rules/utils.ts) are embedded directly from the
TypeScript source.  The single-value validation engine, the skip-condition
evaluator, the resolver, the composite `ArrayOf`, and the target orchestrator
are not present in the source tree (only their documentation and callers are);
those definitions are modelled from the specification, as marked in their
doc comments.

JavaScript regular-expression tests are translated into executable character
list checkers; `JSON.parse` and `isUrl` (runtime / external collaborators)
are passed in as predicate parameters; the i18n translator is modelled as
returning its message key.
-/

set_option maxHeartbeats 1000000

namespace Reslib

/-- Model of a JavaScript number as used by the validator utilities: either
`NaN` or an integer value (fractional values are not needed by any claim). -/
inductive JSNum where
  | nan : JSNum
  | int (i : Int) : JSNum
  deriving Repr, DecidableEq

/-- Model of a JavaScript value: `null`, `undefined`, strings, numbers,
booleans, arrays and plain objects (association lists of fields). -/
inductive JSValue where
  | null : JSValue
  | undefined : JSValue
  | str (s : String) : JSValue
  | num (n : JSNum) : JSValue
  | bool (b : Bool) : JSValue
  | arr (elems : List JSValue) : JSValue
  | obj (fields : List (String × JSValue)) : JSValue

/-- JavaScript truthiness: `null`, `undefined`, `false`, `0`, `NaN` and the
empty string are falsy; every other value (including empty arrays and empty
objects) is truthy. -/
def truthy : JSValue → Bool
  | .null => false
  | .undefined => false
  | .bool b => b
  | .num .nan => false
  | .num (.int i) => i != 0
  | .str s => s != ""
  | .arr _ => true
  | .obj _ => true

/-- Whether a value is a string (JavaScript `typeof value === 'string'`). -/
def isStr : JSValue → Bool
  | .str _ => true
  | _ => false

/-- Whether a value is exactly the empty string. -/
def isEmptyStr : JSValue → Bool
  | .str s => s == ""
  | _ => false

/-- Whether a value is `null` or `undefined`. -/
def isNullish : JSValue → Bool
  | .null => true
  | .undefined => true
  | _ => false

/-- Whether a value is `undefined` (and not `null`). -/
def isUndef : JSValue → Bool
  | .undefined => true
  | _ => false

/-- Whether a value is absent in the sense of the `Required` rule:
`null`, `undefined` or the empty string. -/
def isAbsent : JSValue → Bool
  | .null => true
  | .undefined => true
  | .str s => s == ""
  | _ => false

/-- Outcome of one ordinary rule unit: `true` (pass) or a failure message. -/
inductive RuleResult where
  | ok : RuleResult
  | fail (msg : String) : RuleResult
  deriving Repr, DecidableEq

/-- A rule function, the resolved invocable form consumed by the engine. -/
abbrev RuleFun := JSValue → RuleResult

/-- Modelled from the spec: a resolved rule unit of a rule chain.  The four
skip-sentinels (`Required`, `Empty`, `Nullable`, `Optional`) are recognised
by the skip-condition evaluator; every other unit is an ordinary rule
function.  (The engine source, src/validator/validator.ts and
src/validator/rules/defaults.ts, is not under src/.) -/
inductive RuleUnit where
  | required : RuleUnit
  | empty : RuleUnit
  | nullable : RuleUnit
  | optional : RuleUnit
  | ordinary (f : RuleFun) : RuleUnit

/-- Chain-level outcome of the engine: overall pass, or the first failure
message encountered. -/
inductive ChainOutcome where
  | passed : ChainOutcome
  | failed (msg : String) : ChainOutcome
  deriving Repr, DecidableEq

/-- Message produced when the `Required` sentinel rejects a value (the i18n
translator is modelled as returning its key). -/
def requiredMsg : String := "validator.required"

/-- Modelled from the spec: the Single-Value Validation Engine
(src/validator/validator.ts is not under src/).  Rule units are evaluated
left to right; `Required` fails immediately on `null`/`undefined`/empty
string; a triggered skip-sentinel short-circuits all subsequent units with
overall outcome PASSED; an ordinary unit failing terminates the chain with
its message; reaching the end while running yields PASSED.  The second
component counts how many ordinary rule functions were invoked (the
specification's spy counter). -/
def runChain (v : JSValue) : List RuleUnit → ChainOutcome × Nat
  | [] => (.passed, 0)
  | .required :: rest =>
      if isAbsent v then (.failed requiredMsg, 0) else runChain v rest
  | .empty :: rest =>
      if isEmptyStr v then (.passed, 0) else runChain v rest
  | .nullable :: rest =>
      if isNullish v then (.passed, 0) else runChain v rest
  | .optional :: rest =>
      if isUndef v then (.passed, 0) else runChain v rest
  | .ordinary f :: rest =>
      match f v with
      | .fail m => (.failed m, 1)
      | .ok => ((runChain v rest).fst, (runChain v rest).snd + 1)

/-- Outcome of a promise-returning rule function from the source: the promise
resolves with `true`, resolves with a failure message string, or is rejected
with a message.  (None of the embedded rules throws synchronously, which the
embedding reflects by being a total function into this type.) -/
inductive RuleOutcome where
  | resolvedTrue : RuleOutcome
  | resolvedMsg (msg : String) : RuleOutcome
  | rejected (msg : String) : RuleOutcome
  deriving Repr, DecidableEq

/-- Message key used by `_UUID` (i18n modelled as returning its key). -/
def uuidMsg : String := "validator.uuid"

/-- Message key used by `_JSON`. -/
def jsonMsg : String := "validator.json"

/-- Message key used by `_Base64`. -/
def base64Msg : String := "validator.base64"

/-- Message key used by `_HexColor`. -/
def hexColorMsg : String := "validator.hexColor"

/-- Message key used by `_CreditCard`. -/
def creditCardMsg : String := "validator.creditCard"

/-- Message key used by `_IsIP`. -/
def ipMsg : String := "validator.ip"

/-- Message key used by `_MACAddress`. -/
def macMsg : String := "validator.macAddress"

/-- Message key used by the `Url` rule. -/
def urlMsg : String := "validator.url"

/-- Hexadecimal digit, both cases (character class `[0-9a-fA-F]`). -/
def isHexDigit (c : Char) : Bool :=
  c.isDigit || ('a' ≤ c && c ≤ 'f') || ('A' ≤ c && c ≤ 'F')

/-- Translation of the UUID regular expression
`[0-9a-f]{8}-[0-9a-f]{4}-[1-5][0-9a-f]{3}-[89ab][0-9a-f]{3}-[0-9a-f]{12}`
(anchored, case-insensitive): five dash-separated hex groups of lengths
8-4-4-4-12, the third group starting with a version digit 1..5 and the
fourth with a variant digit 8, 9, a or b. -/
def uuidRegexTest (s : String) : Bool :=
  match s.splitOn "-" with
  | [g1, g2, g3, g4, g5] =>
      g1.length == 8 && g1.data.all isHexDigit &&
      g2.length == 4 && g2.data.all isHexDigit &&
      g3.length == 4 && g3.data.all isHexDigit &&
      (match g3.data with
       | c :: _ => '1' ≤ c && c ≤ '5'
       | [] => false) &&
      g4.length == 4 && g4.data.all isHexDigit &&
      (match g4.data with
       | c :: _ => c == '8' || c == '9' || c == 'a' || c == 'b' || c == 'A' || c == 'B'
       | [] => false) &&
      g5.length == 12 && g5.data.all isHexDigit
  | _ => false

/-- Embedding of `_UUID` from the source: a non-string value rejects the
promise with the message; a string resolves `true` when the UUID regex
matches and otherwise rejects with the message. -/
def _UUID (v : JSValue) : RuleOutcome :=
  match v with
  | .str s => if uuidRegexTest s then .resolvedTrue else .rejected uuidMsg
  | _ => .rejected uuidMsg

/-- Embedding of `_JSON` from the source, parameterised by the behaviour of
the runtime `JSON.parse` (`jsonParseOk s` meaning `JSON.parse(s)` does not
throw): a non-string rejects with the message; a string resolves `true`
when it parses and otherwise rejects with the message. -/
def _JSON (jsonParseOk : String → Bool) (v : JSValue) : RuleOutcome :=
  match v with
  | .str s => if jsonParseOk s then .resolvedTrue else .rejected jsonMsg
  | _ => .rejected jsonMsg

/-- Base64 alphabet character (class `[A-Za-z0-9+/]`). -/
def isB64Char (c : Char) : Bool :=
  c.isAlpha || c.isDigit || c == '+' || c == '/'

/-- Translation of the Base64 regular expression
`(?:[A-Za-z0-9+/]{4})*(?:[A-Za-z0-9+/]{2}==|[A-Za-z0-9+/]{3}=)?` (anchored):
complete groups of four alphabet characters, the last group optionally
padded as `xx==` or `xxx=`. -/
def base64Chunks : List Char → Bool
  | [] => true
  | [a, b, c, d] =>
      isB64Char a && isB64Char b &&
      ((c == '=' && d == '=') ||
       (isB64Char c && d == '=') ||
       (isB64Char c && isB64Char d))
  | a :: b :: c :: d :: rest =>
      isB64Char a && isB64Char b && isB64Char c && isB64Char d &&
      base64Chunks rest
  | _ => false

/-- Embedding of `_Base64` from the source. -/
def _Base64 (v : JSValue) : RuleOutcome :=
  match v with
  | .str s => if base64Chunks s.data then .resolvedTrue else .rejected base64Msg
  | _ => .rejected base64Msg

/-- Translation of the hex-color regular expression
`#([A-Fa-f0-9]{3}|[A-Fa-f0-9]{4}|[A-Fa-f0-9]{6}|[A-Fa-f0-9]{8})` (anchored):
a hash sign followed by 3, 4, 6 or 8 hex digits. -/
def hexColorTest (s : String) : Bool :=
  match s.data with
  | '#' :: rest =>
      (rest.length == 3 || rest.length == 4 || rest.length == 6 ||
       rest.length == 8) && rest.all isHexDigit
  | _ => false

/-- Embedding of `_HexColor` from the source. -/
def _HexColor (v : JSValue) : RuleOutcome :=
  match v with
  | .str s => if hexColorTest s then .resolvedTrue else .rejected hexColorMsg
  | _ => .rejected hexColorMsg

/-- Character matched by the JavaScript `\s` class in the ASCII range:
space, tab, line feed, carriage return, vertical tab, form feed.  (The
Unicode space characters also matched by `\s` are outside this model.) -/
def jsWhitespaceChar (c : Char) : Bool :=
  c == ' ' || c == '\t' || c == '\n' || c == '\r' ||
  c == Char.ofNat 11 || c == Char.ofNat 12

/-- The cleaning step of `_CreditCard`:
`value.replace(/[\s-]/g, '')` removes every whitespace character and every
dash. -/
def cleanCard (s : String) : List Char :=
  s.data.filter (fun c => !(jsWhitespaceChar c || c == '-'))

/-- Numeric value of a decimal digit character (`parseInt` of one digit). -/
def charDigit (c : Char) : Nat := c.toNat - '0'.toNat

/-- The Luhn loop of `_CreditCard`, translated from the source: the digits
are processed from the last to the first with a `shouldDouble` flag that
starts `false` and alternates; a doubled digit greater than 9 has 9
subtracted.  The argument list is the digit characters right-to-left. -/
def luhnLoop : List Char → Bool → Nat
  | [], _ => 0
  | c :: rest, shouldDouble =>
      let d := charDigit c
      let d2 := if shouldDouble then (if 2 * d > 9 then 2 * d - 9 else 2 * d) else d
      d2 + luhnLoop rest (!shouldDouble)

/-- Embedding of `_CreditCard` from the source: a non-string rejects with
the message; otherwise spaces and dashes are removed (regex `[\s-]`), the
cleaned text must be 13 to 19 decimal digits (regex `\d{13,19}`), and the
Luhn checksum must be a multiple of 10; any failing check rejects with the
message. -/
def _CreditCard (v : JSValue) : RuleOutcome :=
  match v with
  | .str s =>
      let clean := cleanCard s
      if 13 ≤ clean.length && clean.length ≤ 19 && clean.all Char.isDigit then
        if luhnLoop clean.reverse false % 10 == 0 then .resolvedTrue
        else .rejected creditCardMsg
      else .rejected creditCardMsg
  | _ => .rejected creditCardMsg

/-- One IPv4 octet, translation of the regex alternative
`25[0-5]|2[0-4][0-9]|[01]?[0-9][0-9]?` applied to a full dot-separated
component. -/
def ipv4Octet (p : String) : Bool :=
  match p.data with
  | [a] => a.isDigit
  | [a, b] => a.isDigit && b.isDigit
  | [a, b, c] =>
      ((a == '0' || a == '1') && b.isDigit && c.isDigit) ||
      (a == '2' && '0' ≤ b && b ≤ '4' && c.isDigit) ||
      (a == '2' && b == '5' && '0' ≤ c && c ≤ '5')
  | _ => false

/-- Translation of the anchored IPv4 regular expression used by `_IsIP`:
four dot-separated octets. -/
def ipv4Test (s : String) : Bool :=
  match s.splitOn "." with
  | [a, b, c, d] => ipv4Octet a && ipv4Octet b && ipv4Octet c && ipv4Octet d
  | _ => false

/-- One IPv6 group, `[0-9a-fA-F]{1,4}`. -/
def h16 (p : String) : Bool :=
  1 ≤ p.length && p.length ≤ 4 && p.data.all isHexDigit

/-- Splits a colon-separated part list at its first empty part (the position
of a `::` compression), if any. -/
def splitAtEmpty : List String → Option (List String × List String)
  | [] => none
  | "" :: rest => some ([], rest)
  | p :: rest =>
      match splitAtEmpty rest with
      | some (pre, post) => some (p :: pre, post)
      | none => none

/-- Colon-only IPv6 forms of the source regex (alternatives without an
embedded IPv4 tail or zone index), expressed on the list of colon-separated
parts.  Covers: eight full groups; a leading `::` followed by nothing or by
one to seven groups; a trailing `::` after one to seven groups; and a
middle `::` with `k` groups before and `m` after where `k, m ≥ 1` and
`k + m ≤ 7` (the union of the regex alternatives
`(h:){1,6}:h` … `(h:){1,2}(:h){1,5}` and `h:((:h){1,6})`). -/
def ipv6ColonForm (parts : List String) : Bool :=
  (parts.length == 8 && parts.all h16) ||
  (match parts with
   | "" :: "" :: rest =>
       rest == [""] ||
       (1 ≤ rest.length && rest.length ≤ 7 && rest.all h16)
   | _ => false) ||
  (match parts.reverse with
   | "" :: "" :: restRev =>
       1 ≤ restRev.length && restRev.length ≤ 7 &&
       restRev.all h16
   | _ => false) ||
  (match splitAtEmpty parts with
   | some (pre, post) =>
       1 ≤ pre.length && 1 ≤ post.length &&
       pre.length + post.length ≤ 7 &&
       pre.all h16 && post.all h16 && post.all (fun p => p != "")
   | none => false)

/-- The link-local alternative `fe80:(:[0-9a-fA-F]{0,4}){0,4}%[0-9a-zA-Z]+`
of the source regex: address part `fe80` followed by zero to four groups of
zero to four hex digits, then a percent sign and an alphanumeric zone. -/
def ipv6LinkLocal (s : String) : Bool :=
  match s.splitOn "%" with
  | [addr, zone] =>
      1 ≤ zone.length && zone.data.all Char.isAlphanum &&
      (match addr.splitOn ":" with
       | "fe80" :: groups =>
           groups.length ≤ 4 &&
           groups.all (fun g => g.length ≤ 4 && g.data.all isHexDigit)
       | _ => false)
  | _ => false

/-- The IPv4-mapped alternative
`::(ffff(:0{1,4}){0,1}:){0,1}IPv4` of the source regex. -/
def ipv6Mapped (s : String) : Bool :=
  s.startsWith "::" &&
  (ipv4Test (s.drop 2) ||
   (s.startsWith "::ffff:" &&
    (ipv4Test (s.drop 7) ||
     (match (s.drop 7).splitOn ":" with
      | [zeros, quad] =>
          1 ≤ zeros.length && zeros.length ≤ 4 &&
          zeros.data.all (fun c => c == '0') && ipv4Test quad
      | _ => false))))

/-- The alternative `([0-9a-fA-F]{1,4}:){1,4}:IPv4` of the source regex:
one to four groups, a `::` compression, then an IPv4 tail. -/
def ipv6WithV4Tail (s : String) : Bool :=
  match (s.splitOn ":").reverse with
  | quad :: "" :: preRev =>
      1 ≤ preRev.length && preRev.length ≤ 4 &&
      preRev.all h16 && ipv4Test quad
  | _ => false

/-- Translation of the anchored IPv6 regular expression used by `_IsIP`,
as the union of its alternatives. -/
def ipv6Test (s : String) : Bool :=
  ipv6LinkLocal s || ipv6Mapped s || ipv6WithV4Tail s ||
  ipv6ColonForm (s.splitOn ":")

/-- Embedding of `_IsIP` from the source: a non-string rejects with the
message; the version parameter is `ruleParams?.[0] || '4/6'` (a missing or
empty first parameter defaults to accepting both versions); the value is
tested against the corresponding regex and rejects with the message when it
does not match. -/
def _IsIP (ruleParams : List String) (v : JSValue) : RuleOutcome :=
  match v with
  | .str s =>
      let version := match ruleParams with
        | p :: _ => if p == "" then "4/6" else p
        | [] => "4/6"
      let pass :=
        if version == "4" then ipv4Test s
        else if version == "6" then ipv6Test s
        else ipv4Test s || ipv6Test s
      if pass then .resolvedTrue else .rejected ipMsg
  | _ => .rejected ipMsg

/-- Separator accepted inside a MAC address, `[:-]`. -/
def macSep (c : Char) : Bool := c == ':' || c == '-'

/-- The first alternative of the MAC regular expression,
`^([0-9A-Fa-f]{2}[:-]){5}([0-9A-Fa-f]{2})`: because the alternation splits
the anchors, this alternative is only anchored at the start, so it matches
any string that begins with five `XX` separator-terminated pairs followed
by two hex digits, whatever follows. -/
def macPairsAtStart : List Char → Bool
  | a1 :: a2 :: s1 :: b1 :: b2 :: s2 :: c1 :: c2 :: s3 :: d1 :: d2 :: s4 ::
    e1 :: e2 :: s5 :: f1 :: f2 :: _ =>
      isHexDigit a1 && isHexDigit a2 && macSep s1 &&
      isHexDigit b1 && isHexDigit b2 && macSep s2 &&
      isHexDigit c1 && isHexDigit c2 && macSep s3 &&
      isHexDigit d1 && isHexDigit d2 && macSep s4 &&
      isHexDigit e1 && isHexDigit e2 && macSep s5 &&
      isHexDigit f1 && isHexDigit f2
  | _ => false

/-- The second alternative of the MAC regular expression,
`([0-9A-Fa-f]{12})$`: only anchored at the end, so it matches any string
whose last twelve characters are hex digits. -/
def macHexAtEnd (cs : List Char) : Bool :=
  12 ≤ cs.length && (cs.reverse.take 12).all isHexDigit

/-- Translation of the MAC regular expression
`^([0-9A-Fa-f]{2}[:-]){5}([0-9A-Fa-f]{2})|([0-9A-Fa-f]{12})$` used by
`_MACAddress`, preserving the anchor placement of the source alternation. -/
def macRegexTest (s : String) : Bool :=
  macPairsAtStart s.data || macHexAtEnd s.data

/-- Embedding of `_MACAddress` from the source. -/
def _MACAddress (v : JSValue) : RuleOutcome :=
  match v with
  | .str s => if macRegexTest s then .resolvedTrue else .rejected macMsg
  | _ => .rejected macMsg

/-- Embedding of the registered `Url` rule from the source, parameterised by
the external `isUrl` helper (module `@utils/uri`, not under src/):
`!value || typeof value !== 'string' ? true : isUrl(value) || i18n.t(...)`.
A falsy or non-string value passes outright; a non-empty string passes
exactly when `isUrl` accepts it and otherwise fails with the message. -/
def urlRule (isUrlT : String → Bool) (v : JSValue) : RuleResult :=
  if !truthy v || !isStr v then .ok
  else
    match v with
    | .str s => if isUrlT s then .ok else .fail urlMsg
    | _ => .ok

/-- Modelled from the spec: the helper `isEmpty` (imported by
src/validator/rules/utils.ts from `@utils/isEmpty`, a module not under
src/) is modelled as recognising the absent values of the specification,
`null`, `undefined` and the empty string (§4.3: these are the only values
treated as missing; `0`, `false`, empty array/object are present). -/
def isEmptyVal : JSValue → Bool
  | .null => true
  | .undefined => true
  | .str s => s == ""
  | _ => false

/-- Simplified model of the JavaScript `Number()` coercion used by
`toNumber`: numbers convert to themselves, `null` to `0`, `undefined` to
`NaN`, booleans to `0`/`1`, strings to their (integer) numeric value with
blank strings converting to `0` and non-numeric text to `NaN`, and arrays
and objects to `NaN`. -/
def jsNumberConv : JSValue → JSNum
  | .null => .int 0
  | .undefined => .nan
  | .bool b => .int (if b then 1 else 0)
  | .num n => n
  | .str s =>
      let t := s.trim
      if t == "" then .int 0
      else
        match t.toInt? with
        | some i => .int i
        | none => .nan
  | .arr _ => .nan
  | .obj _ => .nan

/-- Embedding of `toNumber` from src/validator/rules/utils.ts: an empty
value gives `NaN`; a number is returned unchanged; otherwise the value is
coerced with `Number()` and `NaN` results stay `NaN`
(`isNaN(v) ? NaN : v`). -/
def toNumber (v : JSValue) : JSNum :=
  if isEmptyVal v then .nan
  else
    match v with
    | .num n => n
    | _ =>
        match jsNumberConv v with
        | .nan => .nan
        | .int i => .int i

/-- Modelled from the spec: the process-wide rule registry, a mapping from
rule name to rule function (src/validator/validator.ts is not under
src/). -/
abbrev Registry := List (String × RuleFun)

/-- Modelled from the spec: a configuration error, signalled distinctly
from a validation failure because it is a caller bug (§7); referencing an
unregistered rule name produces `ruleNotRegistered`. -/
inductive ConfigError where
  | ruleNotRegistered (name : String) : ConfigError
  deriving Repr, DecidableEq

/-- Modelled from the spec: one raw entry of a rule specification — a bare
rule name or an inline rule function (§4.2; parameterised entries resolve
the same way as names for the purposes of the verified claims). -/
inductive RuleSpecEntry where
  | name (n : String) : RuleSpecEntry
  | inline (f : RuleFun) : RuleSpecEntry

/-- Registry lookup (`getRule`). -/
def lookupRule (reg : Registry) (n : String) : Option RuleFun :=
  reg.lookup n

/-- Modelled from the spec: the skip-condition evaluator recognises the
four sentinel rules by name; every other registered function becomes an
ordinary unit. -/
def unitForName (n : String) (f : RuleFun) : RuleUnit :=
  if n == "Required" then .required
  else if n == "Empty" then .empty
  else if n == "Nullable" then .nullable
  else if n == "Optional" then .optional
  else .ordinary f

/-- Modelled from the spec: the Rule Specification Resolver for one entry —
a name is looked up in the registry, and an unknown name fails with a
`ConfigurationError` rather than a validation failure (§4.2, §7). -/
def resolveEntry (reg : Registry) : RuleSpecEntry → Except ConfigError RuleUnit
  | .name n =>
      match lookupRule reg n with
      | none => .error (.ruleNotRegistered n)
      | some f => .ok (unitForName n f)
  | .inline f => .ok (.ordinary f)

/-- Modelled from the spec: resolution of a whole rule chain; the first
configuration error aborts resolution. -/
def resolveChain (reg : Registry) : List RuleSpecEntry → Except ConfigError (List RuleUnit)
  | [] => .ok []
  | e :: rest =>
      match resolveEntry reg e with
      | .error err => .error err
      | .ok u =>
          match resolveChain reg rest with
          | .error err => .error err
          | .ok us => .ok (u :: us)

/-- Result of single-value validation: overall flag and optional first
failure message. -/
structure ValidateResult where
  isValid : Bool
  message : Option String
  deriving Repr, DecidableEq

/-- Modelled from the spec: `validate` resolves the specification (a
configuration error aborts the call) and then runs the chain. -/
def validate (reg : Registry) (v : JSValue) (spec : List RuleSpecEntry) :
    Except ConfigError ValidateResult :=
  match resolveChain reg spec with
  | .error e => .error e
  | .ok chain =>
      match (runChain v chain).fst with
      | .passed => .ok ⟨true, none⟩
      | .failed m => .ok ⟨false, some m⟩

/-- Result of target (object) validation: overall flag and the collected
list of field-level failures. -/
structure TargetResult where
  isValid : Bool
  errors : List (String × String)
  deriving Repr, DecidableEq

/-- Field access `data[field]`: a missing field reads as `undefined`. -/
def getField (data : List (String × JSValue)) (f : String) : JSValue :=
  match data.lookup f with
  | some v => v
  | none => .undefined

/-- Modelled from the spec: the Target Validation Orchestrator core — every
declared field's chain is run against `data[field]`, all field failures are
collected in schema order, and `isValid` is true exactly when the error
list is empty (§4.5). -/
def runTarget (schema : List (String × List RuleUnit))
    (data : List (String × JSValue)) : TargetResult :=
  let errs := schema.filterMap fun fc =>
    match (runChain (getField data fc.fst) fc.snd).fst with
    | .passed => none
    | .failed m => some (fc.fst, m)
  ⟨errs == [], errs⟩

/-- Modelled from the spec: resolution of a field schema; the first
configuration error aborts. -/
def resolveSchema (reg : Registry) :
    List (String × List RuleSpecEntry) →
    Except ConfigError (List (String × List RuleUnit))
  | [] => .ok []
  | (f, spec) :: rest =>
      match resolveChain reg spec with
      | .error e => .error e
      | .ok chain =>
          match resolveSchema reg rest with
          | .error e => .error e
          | .ok rs => .ok ((f, chain) :: rs)

/-- Modelled from the spec: `validateTarget` resolves every field's chain
(a configuration error aborts the whole call, §7) and then aggregates the
per-field outcomes. -/
def validateTarget (reg : Registry) (schema : List (String × List RuleSpecEntry))
    (data : List (String × JSValue)) : Except ConfigError TargetResult :=
  match resolveSchema reg schema with
  | .error e => .error e
  | .ok s => .ok (runTarget s data)

/-- Modelled from the spec: the failure message of `ArrayOf` identifies the
index of the failing element (§4.4: index inclusion is required). -/
def arrayOfMsg (i : Nat) (m : String) : String :=
  "validator.arrayOf.element " ++ toString i ++ ": " ++ m

/-- Modelled from the spec: the AllOf semantics applied by `ArrayOf` to one
element — all sub-rules must pass, first failure wins (mirrors sequential
chain semantics, §4.4). -/
def allOfOutcome (subs : List RuleUnit) (x : JSValue) : ChainOutcome :=
  (runChain x subs).fst

/-- Modelled from the spec: `ArrayOf` walks the elements in order, failing
on the first element whose AllOf run fails, with a message carrying that
element's index. -/
def arrayOfGo (subs : List RuleUnit) : Nat → List JSValue → RuleResult
  | _, [] => .ok
  | i, x :: rest =>
      match allOfOutcome subs x with
      | .failed m => .fail (arrayOfMsg i m)
      | .passed => arrayOfGo subs (i + 1) rest

/-- Modelled from the spec: the `ArrayOf` composite requires an array value
and runs the AllOf semantics of the sub-rules on every element (§4.4). -/
def arrayOfRule (subs : List RuleUnit) (v : JSValue) : RuleResult :=
  match v with
  | .arr xs => arrayOfGo subs 0 xs
  | _ => .fail "validator.arrayOf.notAnArray"

/-- The Luhn checksum as the claim words it: over the digits taken from the
right, every second digit (positions 1, 3, 5, … from the right) is doubled
and has 9 subtracted when the double exceeds 9.  The argument is the digit
list right-to-left. -/
def luhnSpecSum : List Nat → Nat
  | [] => 0
  | [d] => d
  | d :: e :: rest =>
      d + (if 2 * e > 9 then 2 * e - 9 else 2 * e) + luhnSpecSum rest

/-- The claim's characterization of the CreditCard rule exactly as written:
after removing all space characters and dashes, the remaining text must be
13 to 19 decimal digits whose Luhn checksum is a multiple of 10.  (Stated
from the claim's words for comparison with the source embedding.) -/
def creditCardClaimPass (s : String) : Bool :=
  let t := s.data.filter fun c => !(c == ' ' || c == '-')
  13 ≤ t.length && t.length ≤ 19 && t.all Char.isDigit &&
    luhnSpecSum (t.reverse.map charDigit) % 10 == 0

/-- The amended characterization of the CreditCard rule: identical to the
claim's, except that all whitespace (not only spaces) is removed together
with dashes, matching the source's `[\s-]` character class. -/
def creditCardAmendedPass (s : String) : Bool :=
  let t := s.data.filter fun c => !(jsWhitespaceChar c || c == '-')
  13 ≤ t.length && t.length ≤ 19 && t.all Char.isDigit &&
    luhnSpecSum (t.reverse.map charDigit) % 10 == 0

theorem isAbsent_iff (v : JSValue) :
    isAbsent v = true ↔ (v = .null ∨ v = .undefined ∨ v = .str "") := by
  cases v <;> simp [isAbsent]

theorem runChain_required_fst (v : JSValue) :
    (runChain v [RuleUnit.required]).fst =
      if isAbsent v then .failed requiredMsg else .passed := by
  by_cases h : isAbsent v <;> simp [runChain, h]

/-- C1: for the single-rule chain consisting of `Required`, the outcome is
FAILED exactly when the value is `null`, `undefined` or the empty string,
and PASSED otherwise — in particular for `0`, `false`, the empty array and
the empty object. -/
theorem required_chain_fails_iff_absent (v : JSValue) :
    ((∃ m, (runChain v [RuleUnit.required]).fst = .failed m) ↔
      (v = .null ∨ v = .undefined ∨ v = .str "")) ∧
    ((runChain v [RuleUnit.required]).fst = .passed ↔
      ¬(v = .null ∨ v = .undefined ∨ v = .str "")) ∧
    (runChain (.num (.int 0)) [RuleUnit.required]).fst = .passed ∧
    (runChain (.bool false) [RuleUnit.required]).fst = .passed ∧
    (runChain (.arr []) [RuleUnit.required]).fst = .passed ∧
    (runChain (.obj []) [RuleUnit.required]).fst = .passed := by
  refine ⟨?_, ?_, by simp [runChain, isAbsent], by simp [runChain, isAbsent],
    by simp [runChain, isAbsent], by simp [runChain, isAbsent]⟩ <;>
    cases v <;> simp [runChain, isAbsent] <;>
    (rename_i s; by_cases hs : s = "" <;> simp [hs])

theorem required_chain_fails_iff_absent_w :
    (runChain (.num (.int 0)) [RuleUnit.required]).fst = .passed :=
  (required_chain_fails_iff_absent (.str "x")).2.2.1

/-- C2: if the first ordinary rule of a chain fails, the chain outcome is
that rule's failure message, exactly one ordinary rule is invoked, and the
result is the same whatever follows — the second rule (and any later unit)
is never invoked. -/
theorem chain_first_failure_short_circuits (f1 f2 : RuleFun) (v : JSValue)
    (m : String) (h : f1 v = .fail m) :
    runChain v [RuleUnit.ordinary f1, RuleUnit.ordinary f2] = (.failed m, 1) ∧
    ∀ rest : List RuleUnit,
      runChain v (RuleUnit.ordinary f1 :: rest) = (.failed m, 1) := by
  refine ⟨?_, fun rest => ?_⟩ <;> simp [runChain, h]

theorem chain_first_failure_short_circuits_w :
    runChain (.str "v") [RuleUnit.ordinary fun _ => RuleResult.fail "boom",
      RuleUnit.ordinary fun _ => RuleResult.ok] = (.failed "boom", 1) :=
  (chain_first_failure_short_circuits (fun _ => RuleResult.fail "boom")
    (fun _ => RuleResult.ok) (.str "v") "boom" rfl).1

theorem runChain_append_of_failed (v : JSValue) (c₁ : List RuleUnit) :
    ∀ (c₂ : List RuleUnit) (m : String) (n : Nat),
      runChain v c₁ = (.failed m, n) → runChain v (c₁ ++ c₂) = (.failed m, n) := by
  induction c₁ with
  | nil => intro c₂ m n h; simp [runChain] at h
  | cons u rest ih =>
    intro c₂ m n h
    cases u with
    | required =>
        by_cases ha : isAbsent v
        · simpa [runChain, ha] using h
        · simp only [runChain, ha, Bool.false_eq_true, reduceIte,
            List.cons_append] at h ⊢
          exact ih c₂ m n h
    | empty =>
        by_cases ha : isEmptyStr v
        · simp [runChain, ha] at h
        · simp only [runChain, ha, Bool.false_eq_true, reduceIte,
            List.cons_append] at h ⊢
          exact ih c₂ m n h
    | nullable =>
        by_cases ha : isNullish v
        · simp [runChain, ha] at h
        · simp only [runChain, ha, Bool.false_eq_true, reduceIte,
            List.cons_append] at h ⊢
          exact ih c₂ m n h
    | optional =>
        by_cases ha : isUndef v
        · simp [runChain, ha] at h
        · simp only [runChain, ha, Bool.false_eq_true, reduceIte,
            List.cons_append] at h ⊢
          exact ih c₂ m n h
    | ordinary f =>
        cases hf : f v with
        | fail m0 => simpa [runChain, hf] using h
        | ok =>
            simp only [runChain, hf, List.cons_append] at h ⊢
            rw [Prod.mk.injEq] at h
            obtain ⟨h1, h2⟩ := h
            have e : runChain v rest = (.failed m, (runChain v rest).snd) := by
              rw [← h1]
            simp only [List.append_eq]
            rw [ih c₂ m (runChain v rest).snd e]
            simp [h2]

theorem isNullish_iff (v : JSValue) :
    isNullish v = true ↔ (v = .null ∨ v = .undefined) := by
  cases v <;> simp [isNullish]

/-- C3: a triggered `Nullable` skip-sentinel short-circuits all subsequent
units of the chain with overall outcome PASSED and without invoking any
ordinary rule; when not triggered the subsequent rule is evaluated exactly
as it would be alone; and a skip-sentinel never affects units before it —
a failure established by a prefix of the chain is unchanged by whatever
follows it. -/
theorem nullable_skip_sentinel (f : RuleFun) (v : JSValue) :
    ((v = .null ∨ v = .undefined) →
      ∀ rest : List RuleUnit,
        runChain v (RuleUnit.nullable :: rest) = (.passed, 0)) ∧
    (¬(v = .null ∨ v = .undefined) →
      runChain v [RuleUnit.nullable, RuleUnit.ordinary f] =
        runChain v [RuleUnit.ordinary f]) ∧
    (∀ (c₁ c₂ : List RuleUnit) (m : String) (n : Nat),
      runChain v c₁ = (.failed m, n) → runChain v (c₁ ++ c₂) = (.failed m, n)) := by
  refine ⟨?_, ?_, fun c₁ c₂ m n h => runChain_append_of_failed v c₁ c₂ m n h⟩
  · intro hv rest
    simp [runChain, (isNullish_iff v).mpr hv]
  · intro hv
    have : isNullish v = false := by
      cases hn : isNullish v
      · rfl
      · exact absurd ((isNullish_iff v).mp hn) hv
    simp [runChain, this]

theorem nullable_skip_sentinel_w :
    runChain .null [RuleUnit.nullable,
      RuleUnit.ordinary fun _ => RuleResult.fail "x"] = (.passed, 0) :=
  (nullable_skip_sentinel (fun _ => RuleResult.fail "x") .null).1
    (Or.inl rfl) [RuleUnit.ordinary fun _ => RuleResult.fail "x"]

/-- C4: the orchestrator validates every declared field — a failing chain
of any schema field contributes its entry to the returned error list, so
validation never stops at the first failing field — and the returned
validity flag is true exactly when the error list is empty. -/
theorem validateTarget_collects_all_failures
    (schema : List (String × List RuleUnit)) (data : List (String × JSValue)) :
    ((runTarget schema data).isValid = true ↔ (runTarget schema data).errors = []) ∧
    ∀ (f : String) (chain : List RuleUnit) (m : String),
      (f, chain) ∈ schema →
      (runChain (getField data f) chain).fst = .failed m →
      (f, m) ∈ (runTarget schema data).errors := by
  constructor
  · simp [runTarget]
  · intro f chain m hmem hfail
    simp only [runTarget]
    exact List.mem_filterMap.mpr ⟨(f, chain), hmem, by simp [hfail]⟩

theorem validateTarget_collects_all_failures_w :
    ("a", requiredMsg) ∈ (runTarget
        [("a", [RuleUnit.required]), ("b", [RuleUnit.required])]
        [("a", JSValue.str ""), ("b", JSValue.null)]).errors ∧
    ("b", requiredMsg) ∈ (runTarget
        [("a", [RuleUnit.required]), ("b", [RuleUnit.required])]
        [("a", JSValue.str ""), ("b", JSValue.null)]).errors :=
  ⟨(validateTarget_collects_all_failures
      [("a", [RuleUnit.required]), ("b", [RuleUnit.required])]
      [("a", JSValue.str ""), ("b", JSValue.null)]).2
      "a" [RuleUnit.required] requiredMsg (by simp) (by rfl),
   (validateTarget_collects_all_failures
      [("a", [RuleUnit.required]), ("b", [RuleUnit.required])]
      [("a", JSValue.str ""), ("b", JSValue.null)]).2
      "b" [RuleUnit.required] requiredMsg (by simp) (by rfl)⟩

theorem resolveChain_error_of_unknown (reg : Registry) (n : String)
    (hn : lookupRule reg n = none) :
    ∀ spec : List RuleSpecEntry, RuleSpecEntry.name n ∈ spec →
      ∃ e, resolveChain reg spec = .error e := by
  intro spec
  induction spec with
  | nil => intro h; cases h
  | cons e0 rest ih =>
    intro hmem
    cases he : resolveEntry reg e0 with
    | error err => exact ⟨err, by simp [resolveChain, he]⟩
    | ok u =>
        have hrest : RuleSpecEntry.name n ∈ rest := by
          rcases List.mem_cons.mp hmem with h0 | h0
          · exfalso
            rw [← h0] at he
            simp [resolveEntry, hn] at he
          · exact h0
        obtain ⟨err, herr⟩ := ih hrest
        exact ⟨err, by simp [resolveChain, he, herr]⟩

theorem resolveSchema_error_of_unknown (reg : Registry) (n : String)
    (hn : lookupRule reg n = none) :
    ∀ schema : List (String × List RuleSpecEntry),
      (∃ f spec, (f, spec) ∈ schema ∧ RuleSpecEntry.name n ∈ spec) →
      ∃ e, resolveSchema reg schema = .error e := by
  intro schema
  induction schema with
  | nil => rintro ⟨f, spec, hmem, _⟩; cases hmem
  | cons fc rest ih =>
    rintro ⟨f, spec, hmem, hin⟩
    obtain ⟨f0, spec0⟩ := fc
    cases hc : resolveChain reg spec0 with
    | error err => exact ⟨err, by simp [resolveSchema, hc]⟩
    | ok chain =>
        have hrest : ∃ f spec, (f, spec) ∈ rest ∧ RuleSpecEntry.name n ∈ spec := by
          rcases List.mem_cons.mp hmem with h0 | h0
          · exfalso
            have h1 : spec0 = spec := congrArg Prod.snd h0.symm
            obtain ⟨e, he⟩ := resolveChain_error_of_unknown reg n hn spec0 (h1 ▸ hin)
            rw [he] at hc
            cases hc
          · exact ⟨f, spec, h0, hin⟩
        obtain ⟨err, herr⟩ := ih hrest
        exact ⟨err, by simp [resolveSchema, hc, herr]⟩

/-- C5: referencing a rule name that is not registered produces a
`ConfigurationError` — a value of a kind distinct from a validation
failure — and the error aborts the `validate` / `validateTarget` call: the
call yields no result record at all, so the failure is not absorbed into
the per-field error list. -/
theorem unknown_rule_configuration_error (reg : Registry) (v : JSValue)
    (data : List (String × JSValue)) (n : String)
    (hn : lookupRule reg n = none) :
    validate reg v [RuleSpecEntry.name n] = .error (.ruleNotRegistered n) ∧
    (∀ r : ValidateResult, validate reg v [RuleSpecEntry.name n] ≠ .ok r) ∧
    (∀ schema : List (String × List RuleSpecEntry),
      (∃ f spec, (f, spec) ∈ schema ∧ RuleSpecEntry.name n ∈ spec) →
      ∃ e, validateTarget reg schema data = .error e) := by
  have hv : validate reg v [RuleSpecEntry.name n] = .error (.ruleNotRegistered n) := by
    simp [validate, resolveChain, resolveEntry, hn]
  refine ⟨hv, fun r hr => ?_, fun schema hex => ?_⟩
  · rw [hv] at hr; cases hr
  obtain ⟨e, he⟩ := resolveSchema_error_of_unknown reg n hn schema hex
  exact ⟨e, by simp [validateTarget, he]⟩

theorem unknown_rule_configuration_error_w :
    validate [] (JSValue.str "x") [RuleSpecEntry.name "DoesNotExist"] =
      .error (.ruleNotRegistered "DoesNotExist") ∧
    ∃ e, validateTarget [] [("f", [RuleSpecEntry.name "DoesNotExist"])] [] =
      .error e :=
  ⟨(unknown_rule_configuration_error [] (JSValue.str "x") [] "DoesNotExist" rfl).1,
   (unknown_rule_configuration_error [] (JSValue.str "x") [] "DoesNotExist" rfl).2.2
     [("f", [RuleSpecEntry.name "DoesNotExist"])]
     ⟨"f", [RuleSpecEntry.name "DoesNotExist"], by simp, by simp⟩⟩

/-- C7: for a two-element array whose first element passes the AllOf run of
the sub-rules and whose second element fails it with message `m`, the
`ArrayOf` composite fails with the message identifying index 1 as the
failing element. -/
theorem arrayOf_reports_failing_index (subs : List RuleUnit)
    (x1 x2 : JSValue) (m : String)
    (h1 : allOfOutcome subs x1 = .passed)
    (h2 : allOfOutcome subs x2 = .failed m) :
    arrayOfRule subs (.arr [x1, x2]) = .fail (arrayOfMsg 1 m) := by
  simp [arrayOfRule, arrayOfGo, h1, h2]

theorem arrayOf_reports_failing_index_w :
    arrayOfRule [RuleUnit.ordinary fun v => if isEmptyStr v then .fail "e" else .ok]
      (.arr [JSValue.str "a", JSValue.str ""]) = .fail (arrayOfMsg 1 "e") :=
  arrayOf_reports_failing_index
    [RuleUnit.ordinary fun v => if isEmptyStr v then .fail "e" else .ok]
    (JSValue.str "a") (JSValue.str "") "e" (by rfl) (by rfl)

/-- C6 counterexample: the built-in UUID rule, applied to the invalid value
`123` (a non-string, listed as invalid by the rule's own documentation),
rejects its promise with the error message — it raises rather than
returning `true` or returning (resolving) the message, contrary to the
claim that rule functions never signal failure by throwing or rejecting. -/
theorem format_rule_rejects_cex :
    _UUID (JSValue.num (JSNum.int 123)) = .rejected uuidMsg ∧
    _UUID (JSValue.num (JSNum.int 123)) ≠ .resolvedMsg uuidMsg ∧
    _UUID (JSValue.num (JSNum.int 123)) ≠ .resolvedTrue := by
  decide

/-- C6 amended: each built-in format rule resolves `true` for a valid value
and rejects its promise with the error message for an invalid one — it
never resolves with a failure-message string (and, being total into
`RuleOutcome`, never throws synchronously). -/
theorem format_rules_reject_with_message (jsonParseOk : String → Bool)
    (ruleParams : List String) (v : JSValue) :
    (_UUID v = .resolvedTrue ∨ _UUID v = .rejected uuidMsg) ∧
    (_JSON jsonParseOk v = .resolvedTrue ∨ _JSON jsonParseOk v = .rejected jsonMsg) ∧
    (_Base64 v = .resolvedTrue ∨ _Base64 v = .rejected base64Msg) ∧
    (_HexColor v = .resolvedTrue ∨ _HexColor v = .rejected hexColorMsg) ∧
    (_CreditCard v = .resolvedTrue ∨ _CreditCard v = .rejected creditCardMsg) ∧
    (_IsIP ruleParams v = .resolvedTrue ∨ _IsIP ruleParams v = .rejected ipMsg) ∧
    (_MACAddress v = .resolvedTrue ∨ _MACAddress v = .rejected macMsg) := by
  have h1 : ∀ (c : Bool) (r : String),
      (if c then RuleOutcome.resolvedTrue else RuleOutcome.rejected r) =
        RuleOutcome.resolvedTrue ∨
      (if c then RuleOutcome.resolvedTrue else RuleOutcome.rejected r) =
        RuleOutcome.rejected r := by
    intro c r; cases c <;> simp
  have h2 : ∀ (a d : Bool) (r : String),
      (if a then (if d then RuleOutcome.resolvedTrue else RuleOutcome.rejected r)
        else RuleOutcome.rejected r) = RuleOutcome.resolvedTrue ∨
      (if a then (if d then RuleOutcome.resolvedTrue else RuleOutcome.rejected r)
        else RuleOutcome.rejected r) = RuleOutcome.rejected r := by
    intro a d r; cases a <;> cases d <;> simp
  refine ⟨?_, ?_, ?_, ?_, ?_, ?_, ?_⟩ <;>
    cases v <;>
    simp only [_UUID, _JSON, _Base64, _HexColor, _CreditCard, _IsIP,
      _MACAddress] <;>
    first
      | exact Or.inr trivial
      | exact Or.inr rfl
      | exact h1 _ _
      | exact h2 _ _ _

theorem luhnLoop_eq_spec : ∀ l : List Char,
    luhnLoop l false = luhnSpecSum (l.map charDigit)
  | [] => by simp [luhnLoop, luhnSpecSum]
  | [a] => by simp [luhnLoop, luhnSpecSum]
  | a :: b :: rest => by
      have ih := luhnLoop_eq_spec rest
      simp [luhnLoop, luhnSpecSum, ih]
      exact (Nat.add_assoc _ _ _).symm

theorem ite_outcome_iff (a d : Bool) (r : String) :
    ((if a then (if d then RuleOutcome.resolvedTrue else .rejected r)
      else .rejected r) = .resolvedTrue) ↔ (a && d) = true := by
  cases a <;> cases d <;> simp

/-- C8 counterexample: the source strips every whitespace character (the
regex class `[\s-]`), not only spaces and dashes; on the input consisting
of a Luhn-valid 16-digit card number followed by a tab character the rule
passes, while the claim's characterization — removing only spaces and
dashes — leaves a non-digit tab and therefore demands failure. -/
theorem creditCard_whitespace_cex :
    _CreditCard (JSValue.str "4532015112830366\t") = .resolvedTrue ∧
    creditCardClaimPass "4532015112830366\t" = false := by
  decide

/-- C8 amended: the CreditCard rule passes a string exactly when, after
removing all whitespace and dashes, the remaining text is 13 to 19 decimal
digits whose Luhn checksum (doubling every second digit from the right and
subtracting 9 from doubled digits greater than 9) is a multiple of 10, and
it fails (rejects with the message) on every non-string value. -/
theorem creditCard_luhn_characterization (v : JSValue) :
    (∀ s : String, v = JSValue.str s →
      (_CreditCard v = .resolvedTrue ↔ creditCardAmendedPass s = true)) ∧
    (isStr v = false → _CreditCard v = .rejected creditCardMsg) := by
  constructor
  · rintro s rfl
    simp only [_CreditCard, creditCardAmendedPass, cleanCard]
    simp only [luhnLoop_eq_spec]
    exact ite_outcome_iff _ _ _
  · intro h
    cases v <;> simp_all [_CreditCard, isStr]

theorem creditCard_luhn_characterization_w :
    _CreditCard (JSValue.str "4532 0151 1283 0366") = .resolvedTrue :=
  ((creditCard_luhn_characterization (JSValue.str "4532 0151 1283 0366")).1
    "4532 0151 1283 0366" rfl).mpr (by decide)

/-- C9: the registered `Url` rule passes outright for every value that is
falsy or not a string — `null`, `undefined`, the empty string, `0`, `false`,
`NaN` and non-string objects included — and applies the URL format check
(the external `isUrl` predicate) only to non-empty string values. -/
theorem url_rule_passes_non_strings (isUrlT : String → Bool) (v : JSValue) :
    ((truthy v = false ∨ isStr v = false) → urlRule isUrlT v = .ok) ∧
    (∀ s : String, s ≠ "" →
      urlRule isUrlT (JSValue.str s) =
        (if isUrlT s then .ok else .fail urlMsg)) := by
  constructor
  · intro h
    have hc : (!truthy v || !isStr v) = true := by
      rcases h with h | h <;> simp [h]
    simp [urlRule, hc]
  · intro s hs
    simp [urlRule, truthy, isStr, hs]

theorem url_rule_passes_non_strings_w :
    urlRule (fun _ => false) (JSValue.num (JSNum.int 0)) = .ok ∧
    urlRule (fun _ => false) (JSValue.obj []) = .ok ∧
    urlRule (fun _ => false) JSValue.null = .ok ∧
    urlRule (fun _ => false) (JSValue.str "notaurl") = .fail urlMsg :=
  ⟨(url_rule_passes_non_strings (fun _ => false) (JSValue.num (JSNum.int 0))).1
      (Or.inl rfl),
   (url_rule_passes_non_strings (fun _ => false) (JSValue.obj [])).1
      (Or.inr rfl),
   (url_rule_passes_non_strings (fun _ => false) JSValue.null).1
      (Or.inl rfl),
   by
     have h := (url_rule_passes_non_strings (fun _ => false)
       (JSValue.str "notaurl")).2 "notaurl" (by decide)
     simpa using h⟩

/-- C10: `toNumber` is total — it returns a number for every input (the
embedding is a total function into `JSNum`, mirroring the source's
catch-all) — it returns `NaN` for every empty value and for every input
whose `Number()` coercion is `NaN`, and it returns an input that is already
a number unchanged. -/
theorem toNumber_total_and_preserving (v : JSValue) :
    (∃ n : JSNum, toNumber v = n) ∧
    (isEmptyVal v = true → toNumber v = JSNum.nan) ∧
    (∀ n : JSNum, v = JSValue.num n → toNumber v = n) ∧
    (jsNumberConv v = JSNum.nan → toNumber v = JSNum.nan) := by
  refine ⟨⟨toNumber v, rfl⟩, fun h => by simp [toNumber, h], ?_, ?_⟩
  · rintro n rfl
    simp [toNumber, isEmptyVal]
  · intro h
    cases v with
    | null => exact absurd h (by simp [jsNumberConv])
    | undefined => rfl
    | num n =>
        cases n with
        | nan => rfl
        | int i => exact absurd h (by simp [jsNumberConv])
    | bool b => exact absurd h (by simp [jsNumberConv])
    | str s =>
        by_cases hs : s = ""
        · simp [toNumber, isEmptyVal, hs]
        · simp [toNumber, isEmptyVal, hs, h]
    | arr xs => rfl
    | obj fs => rfl

theorem toNumber_total_and_preserving_w :
    toNumber (JSValue.obj []) = JSNum.nan ∧
    toNumber (JSValue.num (JSNum.int 5)) = JSNum.int 5 ∧
    toNumber JSValue.null = JSNum.nan :=
  ⟨(toNumber_total_and_preserving (JSValue.obj [])).2.2.2 rfl,
   (toNumber_total_and_preserving (JSValue.num (JSNum.int 5))).2.2.1
      (JSNum.int 5) rfl,
   (toNumber_total_and_preserving JSValue.null).2.1 rfl⟩

end Reslib
